import Mathlib

/-!
# Inventory analytics engine: a shallow embedding

This file embeds the analytics computations of the retail inventory dashboard
(`src/lib/api.ts`, `src/pages/SmartOrder.tsx`, `src/pages/InventoryStatus.tsx`)
and proves or refutes the spec's claims about them.

Modelling conventions:
- The source stores calendar dates as `YYYY-MM-DD` strings, compares them
  lexicographically, and shifts them by whole days through the JS `Date` API.
  Both operations agree with integer day-number arithmetic, so calendar
  dates are modelled as `Int` day numbers throughout.
- JS numbers appearing as counts/stocks are modelled as `Int` (the engine's
  precondition is that facts are well-formed integers; non-negativity is an
  explicit hypothesis where a claim needs it).  Ratios (`avgDailySales`,
  growth rate, cumulative share) are modelled exactly as `Rat`.
- `x / 0` in `Rat` is `0`.  Every division the source performs is guarded
  (`avgDailySales > 0 ? _ : 999`, `prev > 0 ? diff/prev : 0`, the
  `sales7Days <= 0` early return in ABC grading), so the guarded branches of
  the model never rely on that convention; it only shows up in characterising
  unreachable branches.
-/

namespace Sales

/-- One row of the `daily_sales` table: `{ date, barcode, quantity }`. -/
structure SalesFact where
  date : Int
  barcode : Nat
  quantity : Int
deriving Repr, DecidableEq

/-- One row of the `products` table (the fields the analytics read). -/
structure Product where
  barcode : Nat
  name : Nat
  current_stock : Int
  incoming_stock : Int
  hq_stock : Int
deriving Repr, DecidableEq

/-- `let maxDateStr = ''; sales.forEach(s => { if (s.date > maxDateStr) maxDateStr = s.date })`
(`api.ts:831-834`): the maximum sales date, `none` when there are no rows.
(An empty accumulator string compares below every date, so the first row
always replaces it.) -/
def maxDate : List SalesFact → Option Int
  | [] => none
  | f :: fs => some (fs.foldl (fun m g => if g.date > m then g.date else m) f.date)

/-- `const anchorDate = maxDateStr ? new Date(maxDateStr) : new Date()`
(`api.ts:837`): `getProductStats` falls back to the system clock when the
sales table is empty.  The clock is passed in explicitly. -/
def productStatsAnchor (sales : List SalesFact) (clock : Int) : Int :=
  (maxDate sales).getD clock

/-- `getDashboardAnalytics` reads the anchor with
`select date order desc limit 1` and returns `null` when no row exists
(`api.ts:425-433`). -/
def dashboardAnchor (sales : List SalesFact) : Option Int :=
  maxDate sales

/-- JS `Math.round`: round half toward positive infinity. -/
def jsRound (x : ℚ) : Int := Int.floor (x + 1/2)

/-- JS `Math.ceil`. -/
def jsCeil (x : ℚ) : Int := Int.ceil x

/-- `parseFloat(x.toFixed(1))` (`api.ts:947`) and `Math.round(x * 10) / 10`
(`api.ts:719-720`): round to one decimal digit, halves toward positive
infinity. -/
def roundTo1 (x : ℚ) : ℚ := (jsRound (x * 10) : ℚ) / 10

/-- Total quantity of a list of sales rows. -/
def sumQty (fs : List SalesFact) : Int := (fs.map (·.quantity)).sum

/-- `entry.total += s.quantity` over all rows of one barcode (`api.ts:854`). -/
def salesTotal (fs : List SalesFact) (b : Nat) : Int :=
  sumQty (fs.filter (fun s => s.barcode = b))

/-- `if (s.date >= date7DaysAgo) entry.last7Days += s.quantity` with
`date7DaysAgo = anchor - 6` (`api.ts:846-847,860`). -/
def sales7 (fs : List SalesFact) (anchor : Int) (b : Nat) : Int :=
  sumQty (fs.filter (fun s => s.barcode = b ∧ anchor - 6 ≤ s.date))

/-- `if (s.date >= date14DaysAgo) entry.last14Days += s.quantity` with
`date14DaysAgo = anchor - 13` (`api.ts:849-850,859`). -/
def sales14 (fs : List SalesFact) (anchor : Int) (b : Nat) : Int :=
  sumQty (fs.filter (fun s => s.barcode = b ∧ anchor - 13 ≤ s.date))

/-- Trend labels of `api.ts:913`. -/
inductive Trend
  | hot | cold | up | down | flat
deriving Repr, DecidableEq

/-- ABC grades. -/
inductive Grade
  | A | B | C | D
deriving Repr, DecidableEq

/-- The fields of one element of the `getProductStats` result that the
analytics claims are about (`api.ts:923-953`; presentation-only fields such
as `imageUrl`, `season` and the wall-clock `trends` sub-object are omitted). -/
structure ProductStat where
  barcode : Nat
  name : Nat
  coupangStock : Int
  incomingStock : Int
  hqStock : Int
  totalSales : Int
  sales14Days : Int
  sales7Days : Int
  prevSales7Days : Int
  avgDailySales : ℚ
  daysOfInventory : Int
  trend : Trend
  abcGrade : Grade
deriving Repr, DecidableEq

instance : Inhabited ProductStat :=
  ⟨⟨0, 0, 0, 0, 0, 0, 0, 0, 0, 0, 0, .flat, .D⟩⟩

/-- Trend classification (`api.ts:913-921`):
`rate = prev > 0 ? diff / prev : 0`, then the `hot`/`cold` checks run before
the `up`/`down`/`flat` fallback. -/
def trendOf (last7 prev : Int) : Trend :=
  let diff : Int := last7 - prev
  let rate : ℚ := if 0 < prev then (diff : ℚ) / (prev : ℚ) else 0
  if 1/2 ≤ rate ∧ 10 ≤ last7 then .hot
  else if rate ≤ -(1/2) ∧ 10 ≤ prev then .cold
  else if 0 < diff then .up
  else if diff < 0 then .down
  else .flat

/-- The per-product merge step of `getProductStats` (`api.ts:870-953`):
window totals, the exact average `last7Days / 7`, `daysOfInventory`
(rounded quotient, `999` sentinel), the rounded `avgDailySales` output
field, and the trend label.  `abcGrade` starts at the code's default `D`
and is overwritten by the ABC pass. -/
def preStat (fs : List SalesFact) (anchor : Int) (p : Product) : ProductStat :=
  let last7 := sales7 fs anchor p.barcode
  let last14 := sales14 fs anchor p.barcode
  let avgDailySales : ℚ := (last7 : ℚ) / 7
  let daysOfInventory : Int :=
    if 0 < avgDailySales then jsRound ((p.current_stock : ℚ) / avgDailySales) else 999
  let prev := last14 - last7
  { barcode := p.barcode
    name := p.name
    coupangStock := p.current_stock
    incomingStock := p.incoming_stock
    hqStock := p.hq_stock
    totalSales := salesTotal fs p.barcode
    sales14Days := last14
    sales7Days := last7
    prevSales7Days := prev
    avgDailySales := roundTo1 avgDailySales
    daysOfInventory := daysOfInventory
    trend := trendOf last7 prev
    abcGrade := .D }

/-- The comparator of `result.sort((a, b) => b.sales7Days - a.sales7Days)`
(`api.ts:958`): `a` may stay before `b` when `a` sells at least as much. -/
def bySales (a b : ProductStat) : Prop := b.sales7Days ≤ a.sales7Days

instance : DecidableRel bySales := fun a b =>
  inferInstanceAs (Decidable (b.sales7Days ≤ a.sales7Days))

instance : IsTotal ProductStat bySales :=
  ⟨fun a b => le_total b.sales7Days a.sales7Days⟩

instance : IsTrans ProductStat bySales :=
  ⟨fun _ _ _ h1 h2 => le_trans h2 h1⟩

/-- Stable descending sort by `sales7Days` (JS `Array.prototype.sort` is
stable). -/
def sortBySales7 (l : List ProductStat) : List ProductStat :=
  List.insertionSort bySales l

/-- The share-threshold part of the ABC walk (`api.ts:972-978`). -/
def pctGrade (pct : ℚ) : Grade :=
  if pct ≤ 20 then .A else if pct ≤ 50 then .B else .C

/-- The `result.forEach` walk of the ABC pass (`api.ts:961-979`): items with
`sales7Days <= 0` are graded `D` and skipped by the running sum; otherwise
the running sum is advanced first and the cumulative share decides the
grade. -/
def abcWalk (total : Int) (cum : Int) : List ProductStat → List ProductStat
  | [] => []
  | p :: rest =>
    if p.sales7Days ≤ 0 then
      { p with abcGrade := .D } :: abcWalk total cum rest
    else
      let cum2 := cum + p.sales7Days
      let pct : ℚ := (cum2 : ℚ) / (total : ℚ) * 100
      { p with abcGrade := pctGrade pct } :: abcWalk total cum2 rest

/-- The ABC pass (`api.ts:956-979`): sort descending by `sales7Days`,
total the 7-day sales (the sort does not change the total), walk. -/
def classifyABC (l : List ProductStat) : List ProductStat :=
  let sorted := sortBySales7 l
  let total := (sorted.map (·.sales7Days)).sum
  abcWalk total 0 sorted

/-- `getProductStats` (`api.ts:766-984`) restricted to its pure computation:
anchor selection, per-product merge, ABC classification.  `clock` stands for
`new Date()`. -/
def getProductStats (products : List Product) (fs : List SalesFact) (clock : Int) :
    List ProductStat :=
  let anchor := productStatsAnchor fs clock
  classifyABC (products.map (preStat fs anchor))

/-! ## SmartOrder (reorder recommendation) -/

/-- The per-variant recommendation of `SmartOrder.tsx:85-98`:
`Math.max(0, Math.ceil(p.avgDailySales * (leadTime + safetyBuffer) - (p.coupangStock + (p.incomingStock || 0))))`.
Note it reads the (rounded) `avgDailySales` field of the stat. -/
def smartRecommendation (p : ProductStat) (leadTime safetyBuffer : Int) : Int :=
  let daysNeeded : Int := leadTime + safetyBuffer
  let requiredStock : ℚ := p.avgDailySales * (daysNeeded : ℚ)
  let netRecommended : ℚ := requiredStock - ((p.coupangStock : ℚ) + (p.incomingStock : ℚ))
  max 0 (jsCeil netRecommended)

/-! ## InventoryStatus (status label, grouping, group minimum) -/

/-- The status cascade of `InventoryStatus.tsx:72-83`, evaluated in source
order: out-of-stock, then the day-count thresholds. -/
def statusOf (coupangStock : Int) (daysOfInventory : Int) : String :=
  if coupangStock = 0 then "품절"
  else if daysOfInventory < 7 then "위험"
  else if daysOfInventory < 14 then "부족"
  else "양호"

/-- The group accumulator fold for `minDaysOfInventory`
(`InventoryStatus.tsx:99,113`): starts at `9999`, keeps the smaller value. -/
def minDays (children : List ProductStat) : Int :=
  children.foldl (fun m p => if p.daysOfInventory < m then p.daysOfInventory else m) 9999

/-- Distinct values in first-appearance order: JS `Map` keys iterate in
insertion order. -/
def firstOccur : List Nat → List Nat
  | [] => []
  | a :: l => a :: (firstOccur l).filter (fun x => x ≠ a)

/-- One product group of `InventoryStatus.tsx`'s `groupedData` (the fields
the claims are about). -/
structure InventoryGroup where
  name : Nat
  minDaysOfInventory : Int
  children : List ProductStat
deriving Repr, DecidableEq

/-- The grouping pass of `InventoryStatus.tsx:59-127`: group stats by `name`
in first-appearance order, children keep their order, the group minimum is
the `9999`-seeded fold. -/
def groupedData (stats : List ProductStat) : List InventoryGroup :=
  (firstOccur (stats.map (·.name))).map (fun n =>
    let children := stats.filter (fun p => p.name = n)
    { name := n, minDaysOfInventory := minDays children, children := children })

/-! ## Dashboard stock-out risk screener -/

/-- One entry of the dashboard's `riskItems` (`api.ts:715-721`). -/
structure RiskItem where
  name : Nat
  currentStock : Int
  avgDailySales : ℚ
  daysLeft : ℚ
deriving Repr, DecidableEq

/-- `inventoryMap`: coupang stock summed per product name (`api.ts:635-644`). -/
def stockOfName (products : List Product) (n : Nat) : Int :=
  ((products.filter (fun p => p.name = n)).map (·.current_stock)).sum

/-- `barcodeToName` (`api.ts:691-692`); `barcode` is the primary key of
`products`, so first match and last match coincide. -/
def nameOfBarcode (products : List Product) (b : Nat) : Option Nat :=
  (products.find? (fun p => p.barcode = b)).map (·.name)

/-- `productSalesStats`: quantities summed per registered product name over
the rows fetched with `gte('date', anchor - 7)` and `lte('date', anchor)`
(`api.ts:656-699`).  Note the start is `anchor - 7`: eight calendar days. -/
def riskSales (products : List Product) (fs : List SalesFact) (anchor : Int) (n : Nat) : Int :=
  sumQty (fs.filter (fun s =>
    anchor - 7 ≤ s.date ∧ s.date ≤ anchor ∧ nameOfBarcode products s.barcode = some n))

/-- The per-name risk test of `api.ts:702-724`: skip `stock <= 0`, skip
`sales7d === 0`, keep when `stock / (sales / 7) <= 3`. -/
def riskItem? (products : List Product) (fs : List SalesFact) (anchor : Int) (n : Nat) :
    Option RiskItem :=
  let stock := stockOfName products n
  if stock ≤ 0 then none
  else
    let s7 := riskSales products fs anchor n
    if s7 = 0 then none
    else
      let avgDaily : ℚ := (s7 : ℚ) / 7
      let daysLeft : ℚ := (stock : ℚ) / avgDaily
      if daysLeft ≤ 3 then
        some { name := n, currentStock := stock
               avgDailySales := roundTo1 avgDaily, daysLeft := roundTo1 daysLeft }
      else none

/-- The comparator of `riskItems.sort((a, b) => b.avgDailySales - a.avgDailySales)`
(`api.ts:729`). -/
def byAvgDesc (a b : RiskItem) : Prop := b.avgDailySales ≤ a.avgDailySales

instance : DecidableRel byAvgDesc := fun a b =>
  inferInstanceAs (Decidable (b.avgDailySales ≤ a.avgDailySales))

instance : IsTotal RiskItem byAvgDesc :=
  ⟨fun a b => le_total b.avgDailySales a.avgDailySales⟩

instance : IsTrans RiskItem byAvgDesc :=
  ⟨fun _ _ _ h1 h2 => le_trans h2 h1⟩

/-- The risk screener over one anchored data set (`api.ts:648-729`): the
names are walked in `inventoryMap` insertion order (first appearance in
`products`), filtered by `riskItem?`, then sorted by `avgDailySales`
descending.  (The `findIndex` de-duplication of the source is a no-op:
names are already distinct.) -/
def riskItemsOf (products : List Product) (fs : List SalesFact) (anchor : Int) :
    List RiskItem :=
  List.insertionSort byAvgDesc
    ((firstOccur (products.map (·.name))).filterMap (riskItem? products fs anchor))

/-- The dashboard's risk computation with its no-data guard: `null` when the
sales table is empty (`api.ts:425-433`), the screener otherwise. -/
def getDashboardRisk (products : List Product) (fs : List SalesFact) :
    Option (List RiskItem) :=
  (dashboardAnchor fs).map (riskItemsOf products fs)

end Sales

/-! ## Shared lemmas -/

namespace Sales

theorem abcWalk_length (total : Int) (cum : Int) (l : List ProductStat) :
    (abcWalk total cum l).length = l.length := by
  induction l generalizing cum with
  | nil => rfl
  | cons p rest ih =>
    by_cases h : p.sales7Days ≤ 0 <;> simp [abcWalk, h, ih]

theorem classifyABC_length (l : List ProductStat) :
    (classifyABC l).length = l.length := by
  simp only [classifyABC, abcWalk_length, sortBySales7]
  exact (List.perm_insertionSort bySales l).length_eq

theorem getProductStats_length (ps : List Product) (fs : List SalesFact) (clock : Int) :
    (getProductStats ps fs clock).length = ps.length := by
  simp [getProductStats, classifyABC_length]

theorem mem_abcWalk {total cum : Int} {l : List ProductStat} {stat : ProductStat}
    (h : stat ∈ abcWalk total cum l) :
    ∃ q ∈ l, stat = { q with abcGrade := stat.abcGrade } := by
  induction l generalizing cum with
  | nil => simp [abcWalk] at h
  | cons p rest ih =>
    by_cases hle : p.sales7Days ≤ 0
    · simp only [abcWalk, if_pos hle, List.mem_cons] at h
      rcases h with h | h
      · exact ⟨p, List.mem_cons_self p rest, by rw [h]⟩
      · obtain ⟨q, hq, he⟩ := ih h
        exact ⟨q, List.mem_cons_of_mem p hq, he⟩
    · simp only [abcWalk, if_neg hle, List.mem_cons] at h
      rcases h with h | h
      · exact ⟨p, List.mem_cons_self p rest, by rw [h]⟩
      · obtain ⟨q, hq, he⟩ := ih h
        exact ⟨q, List.mem_cons_of_mem p hq, he⟩

theorem mem_getProductStats {ps : List Product} {fs : List SalesFact} {clock : Int}
    {stat : ProductStat} (h : stat ∈ getProductStats ps fs clock) :
    ∃ p ∈ ps,
      stat = { preStat fs (productStatsAnchor fs clock) p with abcGrade := stat.abcGrade } := by
  simp only [getProductStats, classifyABC] at h
  obtain ⟨q, hq, he⟩ := mem_abcWalk h
  rw [sortBySales7, List.mem_insertionSort] at hq
  obtain ⟨p, hp, hpq⟩ := List.mem_map.mp hq
  exact ⟨p, hp, by rw [he, hpq]⟩

end Sales

/-! ## C4 and C7 -/

namespace Sales

/-- A sample registry row used by concrete instances below. -/
def P1 : List Product := [⟨1, 1, 0, 0, 0⟩]

/-- A single sales fact of quantity 1 on day 0. -/
def F1 : List SalesFact := [⟨0, 1, 1⟩]

/-- The (unique) stats row `getProductStats P1 F1 0` produces: one sale in
the window, so the exact average is `1/7`, the reported field `0.1`. -/
def st1 : ProductStat := ⟨1, 1, 0, 0, 0, 1, 1, 1, 0, 1/10, 0, .up, .C⟩

/-- C4 counterexample: with zero sales facts, `getProductStats` anchors at the
system clock (whatever value it has) instead of signalling "no data", and
still returns an ordinary one-entry stats list for a one-product registry;
only the dashboard returns the explicit `none`. -/
theorem productStats_defaults_to_clock :
    productStatsAnchor [] 123 = 123 ∧ productStatsAnchor [] 456 = 456 ∧
    dashboardAnchor [] = none ∧ (getProductStats P1 [] 123).length = 1 := by
  with_unfolding_all decide

/-- C4 (amended): with zero sales facts, `getDashboardAnalytics` returns the
explicit no-data `none` (and so does its risk screener), but `getProductStats`
defaults its anchor date to the system clock and returns an ordinary
zero-sales stats row for every registered product. -/
theorem no_data_handling (ps : List Product) (clock : Int) :
    dashboardAnchor [] = none ∧
    getDashboardRisk ps [] = none ∧
    productStatsAnchor [] clock = clock ∧
    (getProductStats ps [] clock).length = ps.length := by
  refine ⟨rfl, rfl, rfl, getProductStats_length ps [] clock⟩

/-- C7: the status label cascade — `품절` exactly when the coupang stock is
zero (taking precedence even over the `999` sentinel produced by
`avgDailySales == 0`), else `위험` below 7 days of inventory, else `부족`
below 14, else `양호`. -/
theorem status_label_correct (stock days : Int) :
    (statusOf stock days = "품절" ↔ stock = 0) ∧
    (statusOf stock days = "위험" ↔ stock ≠ 0 ∧ days < 7) ∧
    (statusOf stock days = "부족" ↔ stock ≠ 0 ∧ 7 ≤ days ∧ days < 14) ∧
    (statusOf stock days = "양호" ↔ stock ≠ 0 ∧ 14 ≤ days) ∧
    statusOf 0 999 = "품절" := by
  refine ⟨?_, ?_, ?_, ?_, by decide⟩ <;>
  · unfold statusOf
    split_ifs with h1 h2 h3 <;> simp_all <;> omega

end Sales

/-! ## Window sums: monotonicity and the anchor bound -/

namespace Sales

theorem sumQty_cons (f : SalesFact) (t : List SalesFact) :
    sumQty (f :: t) = f.quantity + sumQty t := by
  simp [sumQty]

theorem sumQty_filter_nonneg (fs : List SalesFact) (p : SalesFact → Bool)
    (hnn : ∀ f ∈ fs, 0 ≤ f.quantity) : 0 ≤ sumQty (fs.filter p) := by
  refine List.sum_nonneg ?_
  intro x hx
  obtain ⟨f, hf, rfl⟩ := List.mem_map.mp hx
  exact hnn f (List.mem_of_mem_filter hf)

theorem sumQty_filter_mono (fs : List SalesFact) (p q : SalesFact → Bool)
    (hnn : ∀ f ∈ fs, 0 ≤ f.quantity) (himp : ∀ f, p f = true → q f = true) :
    sumQty (fs.filter p) ≤ sumQty (fs.filter q) := by
  induction fs with
  | nil => exact le_refl 0
  | cons f t ih =>
    have hnn2 : ∀ g ∈ t, 0 ≤ g.quantity := fun g hg => hnn g (List.mem_cons_of_mem f hg)
    have hrec := ih hnn2
    by_cases hp : p f
    · have hq2 : q f = true := himp f hp
      simp only [List.filter_cons, hp, hq2, if_pos, sumQty_cons]
      exact add_le_add_left hrec f.quantity
    · by_cases hq2 : q f
      · simp only [List.filter_cons, hp, hq2, Bool.false_eq_true, if_false, if_pos, sumQty_cons]
        exact le_trans hrec (le_add_of_nonneg_left (hnn f (List.mem_cons_self f t)))
      · simp only [List.filter_cons, hp, hq2, Bool.false_eq_true, if_false]
        exact hrec

theorem foldl_maxd_ge (t : List SalesFact) (a : Int) :
    a ≤ t.foldl (fun m g => if g.date > m then g.date else m) a := by
  induction t generalizing a with
  | nil => exact le_refl a
  | cons g t ih =>
    rw [List.foldl_cons]
    refine le_trans ?_ (ih _)
    dsimp only
    split_ifs with h
    · exact le_of_lt h
    · exact le_refl a

theorem foldl_maxd_mem (t : List SalesFact) (a : Int) :
    ∀ g ∈ t, g.date ≤ t.foldl (fun m g => if g.date > m then g.date else m) a := by
  induction t generalizing a with
  | nil => intro g hg; simp at hg
  | cons g t ih =>
    intro g2 hg2
    rw [List.foldl_cons]
    rcases List.mem_cons.mp hg2 with rfl | hmem
    · refine le_trans ?_ (foldl_maxd_ge t _)
      dsimp only
      split_ifs with h
      · exact le_refl _
      · exact le_of_not_lt h
    · exact ih _ g2 hmem

/-- Every sales date is bounded by the anchor (the source's `maxDateStr`). -/
theorem le_maxDate {fs : List SalesFact} {m : Int} (h : maxDate fs = some m) :
    ∀ f ∈ fs, f.date ≤ m := by
  cases fs with
  | nil => simp [maxDate] at h
  | cons f t =>
    simp only [maxDate, Option.some.injEq] at h
    subst h
    intro g hg
    rcases List.mem_cons.mp hg with rfl | hmem
    · exact foldl_maxd_ge t g.date
    · exact foldl_maxd_mem t f.date g hmem

/-- With at least one sales fact, the lower-bounded 7-day filter of the
source coincides with the two-sided trailing window
`[anchor - 6, anchor]`: no fact can postdate the anchor. -/
theorem sales7_window (fs : List SalesFact) (clock : Int) (b : Nat) (hne : fs ≠ []) :
    sales7 fs (productStatsAnchor fs clock) b =
      sumQty (fs.filter (fun s => s.barcode = b ∧
        productStatsAnchor fs clock - 6 ≤ s.date ∧ s.date ≤ productStatsAnchor fs clock)) := by
  obtain ⟨m, hm⟩ : ∃ m, maxDate fs = some m := by
    cases fs with
    | nil => exact absurd rfl hne
    | cons f t => exact ⟨_, rfl⟩
  have ha : productStatsAnchor fs clock = m := by
    simp [productStatsAnchor, hm]
  rw [ha, sales7]
  congr 1
  refine List.filter_congr ?_
  intro s hs
  refine decide_eq_decide.mpr ?_
  constructor
  · rintro ⟨hb, hd⟩
    exact ⟨hb, hd, le_maxDate hm s hs⟩
  · rintro ⟨hb, hd, _⟩
    exact ⟨hb, hd⟩

end Sales

/-! ## C10, C1, C2, C5 -/

namespace Sales

/-- C10: with non-negative fact quantities, the window totals of every
output row are monotone (the 7-day window filter implies the 14-day filter
implies the all-time filter), so `prevSales7Days = sales14Days - sales7Days`
is never negative. -/
theorem sales_windows_monotone (ps : List Product) (fs : List SalesFact) (clock : Int)
    (stat : ProductStat) (hnn : ∀ f ∈ fs, 0 ≤ f.quantity)
    (h : stat ∈ getProductStats ps fs clock) :
    0 ≤ stat.sales7Days ∧ stat.sales7Days ≤ stat.sales14Days ∧
    stat.sales14Days ≤ stat.totalSales ∧
    stat.prevSales7Days = stat.sales14Days - stat.sales7Days ∧
    0 ≤ stat.prevSales7Days := by
  obtain ⟨p, hp, hstat⟩ := mem_getProductStats h
  have h7 : stat.sales7Days = sales7 fs (productStatsAnchor fs clock) p.barcode := by
    rw [hstat]; rfl
  have h14 : stat.sales14Days = sales14 fs (productStatsAnchor fs clock) p.barcode := by
    rw [hstat]; rfl
  have ht : stat.totalSales = salesTotal fs p.barcode := by
    rw [hstat]; rfl
  have hprev : stat.prevSales7Days = stat.sales14Days - stat.sales7Days := by
    rw [hstat]
    rfl
  have m1 : sales7 fs (productStatsAnchor fs clock) p.barcode ≤
      sales14 fs (productStatsAnchor fs clock) p.barcode := by
    refine sumQty_filter_mono fs _ _ hnn ?_
    intro f hf
    simp only [decide_eq_true_eq] at hf ⊢
    obtain ⟨hb, hd⟩ := hf
    refine ⟨hb, ?_⟩
    omega
  have m2 : sales14 fs (productStatsAnchor fs clock) p.barcode ≤ salesTotal fs p.barcode := by
    refine sumQty_filter_mono fs _ _ hnn ?_
    intro f hf
    simp only [decide_eq_true_eq] at hf ⊢
    exact hf.1
  have m0 : 0 ≤ sales7 fs (productStatsAnchor fs clock) p.barcode :=
    sumQty_filter_nonneg fs _ hnn
  refine ⟨h7 ▸ m0, ?_, ?_, hprev, ?_⟩
  · rw [h7, h14]; exact m1
  · rw [h14, ht]; exact m2
  · rw [hprev]
    have : stat.sales7Days ≤ stat.sales14Days := by rw [h7, h14]; exact m1
    omega

/-- C1 counterexample: for a single product with one sale of quantity 1
inside the window, the reported `avgDailySales` field is `0.1` — the
quotient `1 / 7` rounded to one decimal — not `1 / 7` exactly. -/
theorem avgDailySales_not_exact_quotient :
    (getProductStats P1 F1 0).map (·.avgDailySales) = [1/10] ∧
    (getProductStats P1 F1 0).map (·.sales7Days) = [1] ∧
    ((1 : ℚ)/10) ≠ (1 : ℚ)/7 := by
  with_unfolding_all decide

/-- C1 (amended): the internal average `sales7Days / 7` is computed over the
7 trailing calendar days ending at the anchor and used unrounded to derive
`daysOfInventory`; the reported `avgDailySales` field is that quotient
rounded to one decimal (`parseFloat(toFixed(1))`), and the reorder
recommendation is derived from the rounded field. -/
theorem avgDailySales_rounded (ps : List Product) (fs : List SalesFact) (clock : Int)
    (lead buffer : Int) (stat : ProductStat) (hne : fs ≠ [])
    (h : stat ∈ getProductStats ps fs clock) :
    stat.avgDailySales = roundTo1 ((stat.sales7Days : ℚ) / 7) ∧
    stat.daysOfInventory =
      (if 0 < (stat.sales7Days : ℚ) / 7 then
        jsRound ((stat.coupangStock : ℚ) / ((stat.sales7Days : ℚ) / 7))
      else 999) ∧
    smartRecommendation stat lead buffer =
      max 0 (jsCeil (roundTo1 ((stat.sales7Days : ℚ) / 7) * ((lead : ℚ) + (buffer : ℚ)) -
        ((stat.coupangStock : ℚ) + (stat.incomingStock : ℚ)))) ∧
    stat.sales7Days =
      sumQty (fs.filter (fun s => s.barcode = stat.barcode ∧
        productStatsAnchor fs clock - 6 ≤ s.date ∧ s.date ≤ productStatsAnchor fs clock)) := by
  obtain ⟨p, hp, hstat⟩ := mem_getProductStats h
  have h7 : stat.sales7Days = sales7 fs (productStatsAnchor fs clock) p.barcode := by
    rw [hstat]; rfl
  have hb : stat.barcode = p.barcode := by rw [hstat]; rfl
  have havg : stat.avgDailySales = roundTo1 ((stat.sales7Days : ℚ) / 7) := by
    rw [h7, hstat]; rfl
  refine ⟨havg, ?_, ?_, ?_⟩
  · rw [h7, hstat]; rfl
  · rw [← havg]
    simp only [smartRecommendation, Int.cast_add]
  · rw [h7, hb]
    exact sales7_window fs clock p.barcode hne

/-- C1 instance: the amended statement evaluated on the one-product,
one-fact data set. -/
theorem avgDailySales_rounded_instance :
    st1.avgDailySales = roundTo1 ((st1.sales7Days : ℚ) / 7) ∧
    st1.daysOfInventory =
      (if 0 < (st1.sales7Days : ℚ) / 7 then
        jsRound ((st1.coupangStock : ℚ) / ((st1.sales7Days : ℚ) / 7))
      else 999) ∧
    smartRecommendation st1 70 0 =
      max 0 (jsCeil (roundTo1 ((st1.sales7Days : ℚ) / 7) * ((70 : ℚ) + (0 : ℚ)) -
        ((st1.coupangStock : ℚ) + (st1.incomingStock : ℚ)))) ∧
    st1.sales7Days =
      sumQty (F1.filter (fun s => s.barcode = st1.barcode ∧
        productStatsAnchor F1 0 - 6 ≤ s.date ∧ s.date ≤ productStatsAnchor F1 0)) :=
  avgDailySales_rounded P1 F1 0 70 0 st1 (by decide) (by with_unfolding_all decide)

end Sales

/-! ## C2 and C5 -/

namespace Sales

/-- A product with coupang stock 5. -/
def P2 : List Product := [⟨2, 2, 5, 0, 0⟩]

/-- One sale of quantity 14 on day 0, so the exact average is 2.0. -/
def F2 : List SalesFact := [⟨0, 2, 14⟩]

/-- The stats row `getProductStats P2 F2 0` produces. -/
def st2 : ProductStat := ⟨2, 2, 5, 0, 0, 14, 14, 14, 0, 2, 3, .up, .C⟩

/-- C2 counterexample: with stock 5 and 7-day sales 14 the exact quotient
`coupangStock / avgDailySales` is `5/2 = 2.5`, but the produced
`daysOfInventory` is the rounded `3`. -/
theorem daysOfInventory_not_exact_quotient :
    (getProductStats P2 F2 0).map (·.daysOfInventory) = [3] ∧
    (getProductStats P2 F2 0).map (·.sales7Days) = [14] ∧
    (getProductStats P2 F2 0).map (·.coupangStock) = [5] ∧
    ((3 : ℚ)) ≠ (5 : ℚ) / ((14 : ℚ) / 7) := by
  with_unfolding_all decide

/-- C2 (amended): `daysOfInventory` is the quotient
`coupangStock / avgDailySales` rounded half-up to an integer
(`Math.round`) when `avgDailySales > 0`, and the sentinel `999` when
`avgDailySales == 0`; both branches are total — no division by zero is
ever performed (the zero-average case short-circuits to the sentinel). -/
theorem daysOfInventory_rounded_with_sentinel (ps : List Product) (fs : List SalesFact)
    (clock : Int) (stat : ProductStat) (h : stat ∈ getProductStats ps fs clock) :
    (stat.sales7Days = 0 → stat.daysOfInventory = 999) ∧
    (0 < (stat.sales7Days : ℚ) / 7 →
      stat.daysOfInventory = jsRound ((stat.coupangStock : ℚ) / ((stat.sales7Days : ℚ) / 7))) := by
  obtain ⟨p, hp, hstat⟩ := mem_getProductStats h
  have hdays : stat.daysOfInventory =
      (if 0 < (stat.sales7Days : ℚ) / 7 then
        jsRound ((stat.coupangStock : ℚ) / ((stat.sales7Days : ℚ) / 7))
      else 999) := by
    rw [hstat]; rfl
  constructor
  · intro hz
    rw [hdays, hz]
    norm_num
  · intro hpos
    rw [hdays, if_pos hpos]

/-- C2 instance: the amended statement evaluated on the stock-5, sales-14
data set (average 2, rounded quotient 3). -/
theorem daysOfInventory_rounded_instance :
    (st2.sales7Days = 0 → st2.daysOfInventory = 999) ∧
    (0 < (st2.sales7Days : ℚ) / 7 →
      st2.daysOfInventory = jsRound ((st2.coupangStock : ℚ) / ((st2.sales7Days : ℚ) / 7))) :=
  daysOfInventory_rounded_with_sentinel P2 F2 0 st2 (by with_unfolding_all decide)

/-- C5 counterexample: one sale of quantity 1, stock 0, nothing incoming,
`leadTime + safetyBuffer = 70`.  The code computes
`ceil(0.1 * 70) = 7` from the rounded `avgDailySales` field, while the
claim's formula over the exact 7-day average gives `ceil(70/7) = 10`. -/
theorem recommendation_uses_rounded_avg :
    st1 ∈ getProductStats P1 F1 0 ∧
    smartRecommendation st1 70 0 = 7 ∧
    max 0 (jsCeil (((st1.sales7Days : ℚ) / 7) * ((70 : ℚ) + 0) -
      ((st1.coupangStock : ℚ) + (st1.incomingStock : ℚ)))) = 10 ∧
    (7 : Int) ≠ 10 := by
  with_unfolding_all decide

/-- C5 (amended): the reorder recommendation equals
`max(0, ceil(avgDailySales * (leadTimeDays + safetyBufferDays) - (coupangStock + incomingStock)))`
where `avgDailySales` is the product's reported field — the 7-day average
rounded to one decimal — not the exact `sales7Days / 7`. -/
theorem recommendation_formula (ps : List Product) (fs : List SalesFact) (clock : Int)
    (lead buffer : Int) (stat : ProductStat) (_hl : 0 ≤ lead) (_hb : 0 ≤ buffer)
    (h : stat ∈ getProductStats ps fs clock) :
    smartRecommendation stat lead buffer =
      max 0 (jsCeil (roundTo1 ((stat.sales7Days : ℚ) / 7) * ((lead : ℚ) + (buffer : ℚ)) -
        ((stat.coupangStock : ℚ) + (stat.incomingStock : ℚ)))) := by
  obtain ⟨p, hp, hstat⟩ := mem_getProductStats h
  have h7 : stat.sales7Days = sales7 fs (productStatsAnchor fs clock) p.barcode := by
    rw [hstat]; rfl
  have havg : stat.avgDailySales = roundTo1 ((stat.sales7Days : ℚ) / 7) := by
    rw [h7, hstat]; rfl
  rw [← havg]
  simp only [smartRecommendation, Int.cast_add]

/-- C5 instance: the amended formula evaluated on the stock-5, sales-14
data set with a 70-day coverage window. -/
theorem recommendation_formula_instance :
    smartRecommendation st2 70 0 =
      max 0 (jsCeil (roundTo1 ((st2.sales7Days : ℚ) / 7) * ((70 : ℚ) + (0 : ℚ)) -
        ((st2.coupangStock : ℚ) + (st2.incomingStock : ℚ)))) :=
  recommendation_formula P2 F2 0 70 0 st2 (by decide) (by decide)
    (by with_unfolding_all decide)

end Sales

/-! ## C6: trend classification -/

namespace Sales

/-- The code's guarded growth rate (`prev > 0 ? diff/prev : 0`) makes the
`hot` branch fire exactly when the claim's bare-quotient condition holds:
for `prev = 0` the quotient degenerates to `0` (so `hot` cannot trigger),
and for `prev < 0` a rate of at least `1/2` would need `last7 < 10`. -/
theorem hot_cond_iff (last7 prev : Int) :
    (1/2 ≤ (if 0 < prev then ((last7 - prev : Int) : ℚ) / (prev : ℚ) else 0) ∧ 10 ≤ last7) ↔
      (10 ≤ last7 ∧ 1/2 ≤ ((last7 - prev : Int) : ℚ) / (prev : ℚ)) := by
  by_cases hp : 0 < prev
  · rw [if_pos hp]
    exact and_comm
  · rw [if_neg hp]
    constructor
    · rintro ⟨h1, _⟩
      exact absurd h1 (by norm_num)
    · rintro ⟨h10, hr⟩
      rcases (not_lt.mp hp).lt_or_eq with hneg | h0
      · have hdpos : (0 : ℚ) < ((last7 - prev : Int) : ℚ) := by
          have h1 : (0 : Int) < last7 - prev := by omega
          exact_mod_cast h1
        have hpneg : ((prev : Int) : ℚ) < 0 := by exact_mod_cast hneg
        have hlt : ((last7 - prev : Int) : ℚ) / (prev : ℚ) < 0 :=
          div_neg_of_pos_of_neg hdpos hpneg
        exact absurd hr (by linarith)
      · rw [h0] at hr
        simp only [Int.cast_zero, div_zero] at hr
        exact absurd hr (by norm_num)

/-- The `cold` branch condition: the `prev >= 10` conjunct already forces
`prev > 0`, so the guarded and the bare quotient agree. -/
theorem cold_cond_iff (last7 prev : Int) :
    ((if 0 < prev then ((last7 - prev : Int) : ℚ) / (prev : ℚ) else 0) ≤ -(1/2) ∧ 10 ≤ prev) ↔
      (10 ≤ prev ∧ ((last7 - prev : Int) : ℚ) / (prev : ℚ) ≤ -(1/2)) := by
  by_cases hp : 0 < prev
  · rw [if_pos hp]
    exact and_comm
  · rw [if_neg hp]
    constructor
    · rintro ⟨_, h10⟩
      exact absurd h10 (by omega)
    · rintro ⟨h10, _⟩
      exact absurd h10 (by omega)

/-- Full characterisation of `trendOf`: the hot/cold tests (with the claim's
bare growth rate) are evaluated before the up/down/flat fallback. -/
theorem trendOf_char (last7 prev : Int) :
    (trendOf last7 prev = .hot ↔
      10 ≤ last7 ∧ 1/2 ≤ ((last7 - prev : Int) : ℚ) / (prev : ℚ)) ∧
    (trendOf last7 prev = .cold ↔
      10 ≤ prev ∧ ((last7 - prev : Int) : ℚ) / (prev : ℚ) ≤ -(1/2)) ∧
    (prev = 0 → trendOf last7 prev ≠ .hot) ∧
    (trendOf last7 prev = .up ↔
      ¬(10 ≤ last7 ∧ 1/2 ≤ ((last7 - prev : Int) : ℚ) / (prev : ℚ)) ∧
      ¬(10 ≤ prev ∧ ((last7 - prev : Int) : ℚ) / (prev : ℚ) ≤ -(1/2)) ∧ prev < last7) ∧
    (trendOf last7 prev = .down ↔
      ¬(10 ≤ last7 ∧ 1/2 ≤ ((last7 - prev : Int) : ℚ) / (prev : ℚ)) ∧
      ¬(10 ≤ prev ∧ ((last7 - prev : Int) : ℚ) / (prev : ℚ) ≤ -(1/2)) ∧ last7 < prev) ∧
    (trendOf last7 prev = .flat ↔
      ¬(10 ≤ last7 ∧ 1/2 ≤ ((last7 - prev : Int) : ℚ) / (prev : ℚ)) ∧
      ¬(10 ≤ prev ∧ ((last7 - prev : Int) : ℚ) / (prev : ℚ) ≤ -(1/2)) ∧ last7 = prev) := by
  have htrend : trendOf last7 prev =
      (if 1/2 ≤ (if 0 < prev then ((last7 - prev : Int) : ℚ) / (prev : ℚ) else 0) ∧ 10 ≤ last7
       then Trend.hot
       else if (if 0 < prev then ((last7 - prev : Int) : ℚ) / (prev : ℚ) else 0) ≤ -(1/2) ∧
           10 ≤ prev
       then Trend.cold
       else if 0 < last7 - prev then Trend.up
       else if last7 - prev < 0 then Trend.down
       else Trend.flat) := rfl
  rw [htrend]
  rcases Decidable.em
      (1/2 ≤ (if 0 < prev then ((last7 - prev : Int) : ℚ) / (prev : ℚ) else 0) ∧ 10 ≤ last7)
    with hA | hA
  · rw [if_pos hA]
    have hAc : 10 ≤ last7 ∧ 1/2 ≤ ((last7 - prev : Int) : ℚ) / (prev : ℚ) :=
      (hot_cond_iff last7 prev).mp hA
    have hBc : ¬(10 ≤ prev ∧ ((last7 - prev : Int) : ℚ) / (prev : ℚ) ≤ -(1/2)) := by
      rintro ⟨_, h2⟩
      have h1 := hAc.2
      linarith
    have hp0 : prev = 0 → False := by
      rintro rfl
      have h2 := hAc.2
      simp only [Int.cast_zero, div_zero] at h2
      exact absurd h2 (by norm_num)
    refine ⟨iff_of_true rfl hAc, iff_of_false (by decide) hBc, fun h0 => (hp0 h0).elim,
      iff_of_false (by decide) ?_, iff_of_false (by decide) ?_,
      iff_of_false (by decide) ?_⟩
    · rintro ⟨hna, _, _⟩; exact hna hAc
    · rintro ⟨hna, _, _⟩; exact hna hAc
    · rintro ⟨hna, _, _⟩; exact hna hAc
  · rw [if_neg hA]
    have hAc : ¬(10 ≤ last7 ∧ 1/2 ≤ ((last7 - prev : Int) : ℚ) / (prev : ℚ)) := fun hc =>
      hA ((hot_cond_iff last7 prev).mpr hc)
    rcases Decidable.em
        ((if 0 < prev then ((last7 - prev : Int) : ℚ) / (prev : ℚ) else 0) ≤ -(1/2) ∧ 10 ≤ prev)
      with hB | hB
    · rw [if_pos hB]
      have hBc : 10 ≤ prev ∧ ((last7 - prev : Int) : ℚ) / (prev : ℚ) ≤ -(1/2) :=
        (cold_cond_iff last7 prev).mp hB
      refine ⟨iff_of_false (by decide) hAc, iff_of_true rfl hBc, fun _ => by decide,
        iff_of_false (by decide) ?_, iff_of_false (by decide) ?_,
        iff_of_false (by decide) ?_⟩
      · rintro ⟨_, hnb, _⟩; exact hnb hBc
      · rintro ⟨_, hnb, _⟩; exact hnb hBc
      · rintro ⟨_, hnb, _⟩; exact hnb hBc
    · rw [if_neg hB]
      have hBc : ¬(10 ≤ prev ∧ ((last7 - prev : Int) : ℚ) / (prev : ℚ) ≤ -(1/2)) := fun hc =>
        hB ((cold_cond_iff last7 prev).mpr hc)
      rcases lt_trichotomy 0 (last7 - prev) with hd | hd | hd
      · rw [if_pos hd]
        refine ⟨iff_of_false (by decide) hAc, iff_of_false (by decide) hBc,
          fun _ => by decide, iff_of_true rfl ⟨hAc, hBc, by omega⟩,
          iff_of_false (by decide) ?_, iff_of_false (by decide) ?_⟩
        · rintro ⟨_, _, hlt⟩; omega
        · rintro ⟨_, _, heq⟩; omega
      · rw [if_neg (by omega : ¬ 0 < last7 - prev), if_neg (by omega : ¬ last7 - prev < 0)]
        refine ⟨iff_of_false (by decide) hAc, iff_of_false (by decide) hBc,
          fun _ => by decide, iff_of_false (by decide) ?_,
          iff_of_false (by decide) ?_, iff_of_true rfl ⟨hAc, hBc, by omega⟩⟩
        · rintro ⟨_, _, hlt⟩; omega
        · rintro ⟨_, _, hlt⟩; omega
      · rw [if_neg (by omega : ¬ 0 < last7 - prev), if_pos hd]
        refine ⟨iff_of_false (by decide) hAc, iff_of_false (by decide) hBc,
          fun _ => by decide, iff_of_false (by decide) ?_,
          iff_of_true rfl ⟨hAc, hBc, by omega⟩, iff_of_false (by decide) ?_⟩
        · rintro ⟨_, _, hlt⟩; omega
        · rintro ⟨_, _, heq⟩; omega

end Sales

namespace Sales

/-- C6: for every output row, with `prev7 = sales14Days - sales7Days`, the
trend label is `hot` iff `sales7Days >= 10` and the growth rate is at least
`0.5` (impossible for `prev7 = 0`), else `cold` iff `prev7 >= 10` and the
rate is at most `-0.5`, and only then `up`/`down`/`flat` by comparing
`sales7Days` with `prev7` — the hot/cold checks run first. -/
theorem trend_classification_correct (ps : List Product) (fs : List SalesFact) (clock : Int)
    (stat : ProductStat) (h : stat ∈ getProductStats ps fs clock) :
    (stat.trend = .hot ↔
      10 ≤ stat.sales7Days ∧
      1/2 ≤ ((stat.sales7Days - (stat.sales14Days - stat.sales7Days) : Int) : ℚ) /
        ((stat.sales14Days - stat.sales7Days : Int) : ℚ)) ∧
    (stat.trend = .cold ↔
      10 ≤ stat.sales14Days - stat.sales7Days ∧
      ((stat.sales7Days - (stat.sales14Days - stat.sales7Days) : Int) : ℚ) /
        ((stat.sales14Days - stat.sales7Days : Int) : ℚ) ≤ -(1/2)) ∧
    (stat.sales14Days - stat.sales7Days = 0 → stat.trend ≠ .hot) ∧
    (stat.trend = .up ↔
      ¬(10 ≤ stat.sales7Days ∧
        1/2 ≤ ((stat.sales7Days - (stat.sales14Days - stat.sales7Days) : Int) : ℚ) /
          ((stat.sales14Days - stat.sales7Days : Int) : ℚ)) ∧
      ¬(10 ≤ stat.sales14Days - stat.sales7Days ∧
        ((stat.sales7Days - (stat.sales14Days - stat.sales7Days) : Int) : ℚ) /
          ((stat.sales14Days - stat.sales7Days : Int) : ℚ) ≤ -(1/2)) ∧
      stat.sales14Days - stat.sales7Days < stat.sales7Days) ∧
    (stat.trend = .down ↔
      ¬(10 ≤ stat.sales7Days ∧
        1/2 ≤ ((stat.sales7Days - (stat.sales14Days - stat.sales7Days) : Int) : ℚ) /
          ((stat.sales14Days - stat.sales7Days : Int) : ℚ)) ∧
      ¬(10 ≤ stat.sales14Days - stat.sales7Days ∧
        ((stat.sales7Days - (stat.sales14Days - stat.sales7Days) : Int) : ℚ) /
          ((stat.sales14Days - stat.sales7Days : Int) : ℚ) ≤ -(1/2)) ∧
      stat.sales7Days < stat.sales14Days - stat.sales7Days) ∧
    (stat.trend = .flat ↔
      ¬(10 ≤ stat.sales7Days ∧
        1/2 ≤ ((stat.sales7Days - (stat.sales14Days - stat.sales7Days) : Int) : ℚ) /
          ((stat.sales14Days - stat.sales7Days : Int) : ℚ)) ∧
      ¬(10 ≤ stat.sales14Days - stat.sales7Days ∧
        ((stat.sales7Days - (stat.sales14Days - stat.sales7Days) : Int) : ℚ) /
          ((stat.sales14Days - stat.sales7Days : Int) : ℚ) ≤ -(1/2)) ∧
      stat.sales7Days = stat.sales14Days - stat.sales7Days) := by
  obtain ⟨p, hp, hstat⟩ := mem_getProductStats h
  have ht : stat.trend = trendOf stat.sales7Days (stat.sales14Days - stat.sales7Days) := by
    rw [hstat]; rfl
  rw [ht]
  exact trendOf_char stat.sales7Days (stat.sales14Days - stat.sales7Days)

/-- C6 instance: on the one-product data set with 14 sales in the last week
and none the week before, the rate degenerates (prev 0) and the label is
`up`. -/
theorem trend_classification_instance :
    (st2.trend = .hot ↔
      10 ≤ st2.sales7Days ∧
      1/2 ≤ ((st2.sales7Days - (st2.sales14Days - st2.sales7Days) : Int) : ℚ) /
        ((st2.sales14Days - st2.sales7Days : Int) : ℚ)) ∧
    (st2.trend = .cold ↔
      10 ≤ st2.sales14Days - st2.sales7Days ∧
      ((st2.sales7Days - (st2.sales14Days - st2.sales7Days) : Int) : ℚ) /
        ((st2.sales14Days - st2.sales7Days : Int) : ℚ) ≤ -(1/2)) ∧
    (st2.sales14Days - st2.sales7Days = 0 → st2.trend ≠ .hot) ∧
    (st2.trend = .up ↔
      ¬(10 ≤ st2.sales7Days ∧
        1/2 ≤ ((st2.sales7Days - (st2.sales14Days - st2.sales7Days) : Int) : ℚ) /
          ((st2.sales14Days - st2.sales7Days : Int) : ℚ)) ∧
      ¬(10 ≤ st2.sales14Days - st2.sales7Days ∧
        ((st2.sales7Days - (st2.sales14Days - st2.sales7Days) : Int) : ℚ) /
          ((st2.sales14Days - st2.sales7Days : Int) : ℚ) ≤ -(1/2)) ∧
      st2.sales14Days - st2.sales7Days < st2.sales7Days) ∧
    (st2.trend = .down ↔
      ¬(10 ≤ st2.sales7Days ∧
        1/2 ≤ ((st2.sales7Days - (st2.sales14Days - st2.sales7Days) : Int) : ℚ) /
          ((st2.sales14Days - st2.sales7Days : Int) : ℚ)) ∧
      ¬(10 ≤ st2.sales14Days - st2.sales7Days ∧
        ((st2.sales7Days - (st2.sales14Days - st2.sales7Days) : Int) : ℚ) /
          ((st2.sales14Days - st2.sales7Days : Int) : ℚ) ≤ -(1/2)) ∧
      st2.sales7Days < st2.sales14Days - st2.sales7Days) ∧
    (st2.trend = .flat ↔
      ¬(10 ≤ st2.sales7Days ∧
        1/2 ≤ ((st2.sales7Days - (st2.sales14Days - st2.sales7Days) : Int) : ℚ) /
          ((st2.sales14Days - st2.sales7Days : Int) : ℚ)) ∧
      ¬(10 ≤ st2.sales14Days - st2.sales7Days ∧
        ((st2.sales7Days - (st2.sales14Days - st2.sales7Days) : Int) : ℚ) /
          ((st2.sales14Days - st2.sales7Days : Int) : ℚ) ≤ -(1/2)) ∧
      st2.sales7Days = st2.sales14Days - st2.sales7Days) :=
  trend_classification_correct P2 F2 0 st2 (by with_unfolding_all decide)

end Sales

/-! ## C8: group minimum days of inventory -/

namespace Sales

theorem minDays_eq_foldl (children : List ProductStat) :
    minDays children = (children.map (·.daysOfInventory)).foldl min 9999 := by
  rw [List.foldl_map, minDays]
  have hfun : (fun (m : Int) (p : ProductStat) =>
        if p.daysOfInventory < m then p.daysOfInventory else m)
      = fun (m : Int) (p : ProductStat) => min m p.daysOfInventory := by
    funext m p
    rw [min_def]
    by_cases h : p.daysOfInventory < m
    · rw [if_pos h, if_neg (by omega)]
    · rw [if_neg h, if_pos (by omega)]
  rw [hfun]

theorem foldl_min_min (l : List Int) (a b : Int) :
    l.foldl min (min a b) = min a (l.foldl min b) := by
  induction l generalizing b with
  | nil => rfl
  | cons c t ih =>
    rw [List.foldl_cons, List.foldl_cons, min_assoc, ih]

theorem mem_groupedData {stats : List ProductStat} {g : InventoryGroup}
    (hg : g ∈ groupedData stats) :
    g.children = stats.filter (fun p => p.name = g.name) ∧
    g.minDaysOfInventory = minDays g.children := by
  simp only [groupedData, List.mem_map] at hg
  obtain ⟨n, hn, rfl⟩ := hg
  exact ⟨rfl, rfl⟩

/-- A product whose stock lasts far beyond the `9999` fold seed: stock 2000
at an exact average of `1/7` gives `daysOfInventory = 14000`. -/
def P8 : List Product := [⟨8, 8, 2000, 0, 0⟩]

/-- One sale of quantity 1 on day 0. -/
def F8 : List SalesFact := [⟨0, 8, 1⟩]

/-- C8 counterexample: the group minimum starts from the accumulator `9999`,
so a group whose only child has 14000 days of inventory reports 9999, not
the children's minimum 14000. -/
theorem group_min_days_clamped_cex :
    (groupedData (getProductStats P8 F8 0)).map (·.minDaysOfInventory) = [9999] ∧
    (groupedData (getProductStats P8 F8 0)).map
      (fun g => g.children.map (·.daysOfInventory)) = [[14000]] ∧
    (9999 : Int) ≠ 14000 := by
  with_unfolding_all decide

/-- C8 (amended): for every non-empty product group, the group-level
`minDaysOfInventory` equals the minimum of its children's `daysOfInventory`
values clamped above at the fold's `9999` seed — `min 9999 (min children)` —
never their average or sum. -/
theorem foldl_min_of_min? {l : List Int} {m : Int} (h : l.min? = some m) (a : Int) :
    l.foldl min a = min a m := by
  cases l with
  | nil => simp [List.min?] at h
  | cons d t =>
    have h2 : t.foldl min d = m := by simpa [List.min?] using h
    rw [List.foldl_cons, foldl_min_min, h2]

theorem group_min_days_clamped (stats : List ProductStat) (g : InventoryGroup) (m : Int)
    (hg : g ∈ groupedData stats)
    (hm : (g.children.map (·.daysOfInventory)).min? = some m) :
    g.minDaysOfInventory = min 9999 m := by
  obtain ⟨hch, hmin⟩ := mem_groupedData hg
  rw [hmin, minDays_eq_foldl, foldl_min_of_min? hm]

/-- The single group the stock-5 data set produces. -/
def g2 : InventoryGroup := ⟨2, 3, [st2]⟩

/-- C8 instance: a group whose only child has 3 days of inventory reports
`min 9999 3 = 3`. -/
theorem group_min_days_instance : g2.minDaysOfInventory = min 9999 3 :=
  group_min_days_clamped (getProductStats P2 F2 0) g2 3
    (by with_unfolding_all decide) (by rfl)

end Sales

/-! ## C9: stock-out risk screener -/

namespace Sales

theorem riskItem?_some {ps : List Product} {fs : List SalesFact} {a : Int} {n : Nat}
    {it : RiskItem} :
    riskItem? ps fs a n = some it ↔
      (0 < stockOfName ps n ∧ riskSales ps fs a n ≠ 0 ∧
       (stockOfName ps n : ℚ) / ((riskSales ps fs a n : ℚ) / 7) ≤ 3 ∧
       it = { name := n, currentStock := stockOfName ps n,
              avgDailySales := roundTo1 ((riskSales ps fs a n : ℚ) / 7),
              daysLeft := roundTo1 ((stockOfName ps n : ℚ) /
                ((riskSales ps fs a n : ℚ) / 7)) }) := by
  simp only [riskItem?]
  split_ifs with h1 h2 h3
  · constructor
    · intro hcontra; simp at hcontra
    · rintro ⟨hpos, _⟩; exact absurd hpos (by omega)
  · constructor
    · intro hcontra; simp at hcontra
    · rintro ⟨_, hne, _⟩; exact absurd h2 hne
  · constructor
    · intro hsome
      have hit := (Option.some.injEq _ _).mp hsome
      exact ⟨by omega, h2, h3, hit.symm⟩
    · rintro ⟨_, _, _, rfl⟩; rfl
  · constructor
    · intro hcontra; simp at hcontra
    · rintro ⟨_, _, h3c, _⟩; exact absurd h3c h3

/-- A two-product registry: product 1 (stock 1) and product 2 (stock 0). -/
def P9 : List Product := [⟨1, 1, 1, 0, 0⟩, ⟨2, 2, 0, 0, 0⟩]

/-- Product 1 sold 7 units on day 0; a quantity-0 row on day 7 makes day 7
the anchor, so day 0 is `anchor - 7`: outside any 7-day window but inside
the code's fetch range. -/
def F9 : List SalesFact := [⟨0, 1, 7⟩, ⟨7, 2, 0⟩]

/-- C9 counterexample: product 1 appears in the risk list even though its
sales over the 7 trailing calendar days `[anchor - 6, anchor]` are zero —
the screener's window starts at `anchor - 7` (eight calendar days). -/
theorem risk_window_eight_days_cex :
    getDashboardRisk P9 F9 = some [⟨1, 1, 1, 1⟩] ∧
    dashboardAnchor F9 = some 7 ∧
    sumQty (F9.filter (fun s => nameOfBarcode P9 s.barcode = some 1 ∧
      7 - 6 ≤ s.date ∧ s.date ≤ 7)) = 0 := by
  with_unfolding_all decide

/-- C9 (amended): a product name appears in the stock-out risk list iff its
summed coupang stock is positive, its sales over the eight calendar days
`[anchor - 7, anchor]` (the code subtracts 7 days for the window start and
keeps both endpoints) are non-zero, and `stock / (windowSales / 7) <= 3`;
the list is sorted descending by the rounded `avgDailySales`. -/
theorem risk_screener_correct (ps : List Product) (fs : List SalesFact) (a : Int) (n : Nat)
    (ha : dashboardAnchor fs = some a) :
    getDashboardRisk ps fs = some (riskItemsOf ps fs a) ∧
    ((∃ it ∈ riskItemsOf ps fs a, it.name = n) ↔
      (n ∈ firstOccur (ps.map (·.name)) ∧ 0 < stockOfName ps n ∧
       riskSales ps fs a n ≠ 0 ∧
       (stockOfName ps n : ℚ) / ((riskSales ps fs a n : ℚ) / 7) ≤ 3)) ∧
    (riskItemsOf ps fs a).Sorted byAvgDesc := by
  refine ⟨by rw [getDashboardRisk, ha]; rfl, ?_, ?_⟩
  · constructor
    · rintro ⟨it, hit, hname⟩
      rw [riskItemsOf, List.mem_insertionSort] at hit
      obtain ⟨m, hm, hsome⟩ := List.mem_filterMap.mp hit
      obtain ⟨hs, h7, h3, hit_eq⟩ := riskItem?_some.mp hsome
      have hmn : m = n := by rw [← hname, hit_eq]
      subst hmn
      exact ⟨hm, hs, h7, h3⟩
    · rintro ⟨hmem, hs, h7, h3⟩
      refine ⟨{ name := n, currentStock := stockOfName ps n,
                avgDailySales := roundTo1 ((riskSales ps fs a n : ℚ) / 7),
                daysLeft := roundTo1 ((stockOfName ps n : ℚ) /
                  ((riskSales ps fs a n : ℚ) / 7)) }, ?_, rfl⟩
      rw [riskItemsOf, List.mem_insertionSort]
      exact List.mem_filterMap.mpr ⟨n, hmem, riskItem?_some.mpr ⟨hs, h7, h3, rfl⟩⟩
  · rw [riskItemsOf]
    exact List.sorted_insertionSort byAvgDesc _

/-- C9 instance: the amended characterisation evaluated on the two-product
data set at anchor day 7 for product name 1. -/
theorem risk_screener_instance :
    getDashboardRisk P9 F9 = some (riskItemsOf P9 F9 7) ∧
    ((∃ it ∈ riskItemsOf P9 F9 7, it.name = 1) ↔
      (1 ∈ firstOccur (P9.map (·.name)) ∧ 0 < stockOfName P9 1 ∧
       riskSales P9 F9 7 1 ≠ 0 ∧
       (stockOfName P9 1 : ℚ) / ((riskSales P9 F9 7 1 : ℚ) / 7) ≤ 3)) ∧
    (riskItemsOf P9 F9 7).Sorted byAvgDesc :=
  risk_screener_correct P9 F9 7 1 (by decide)

end Sales

namespace Sales

/-- C10 instance: the monotone-window conclusions on the one-product,
quantity-14 data set. -/
theorem sales_windows_monotone_instance :
    0 ≤ st2.sales7Days ∧ st2.sales7Days ≤ st2.sales14Days ∧
    st2.sales14Days ≤ st2.totalSales ∧
    st2.prevSales7Days = st2.sales14Days - st2.sales7Days ∧
    0 ≤ st2.prevSales7Days :=
  sales_windows_monotone P2 F2 0 st2 (by decide) (by with_unfolding_all decide)

end Sales

/-! ## C3: ABC classification -/

namespace Sales

/-- The running sum the walk actually accumulates: only items with positive
`sales7Days` contribute (`cumulativeSales += p.sales7Days` is skipped for the
`D` early return). -/
def posSum7 (l : List ProductStat) : Int :=
  ((l.filter (fun p => 0 < p.sales7Days)).map (·.sales7Days)).sum

theorem posSum7_cons (p : ProductStat) (t : List ProductStat) :
    posSum7 (p :: t) = (if 0 < p.sales7Days then p.sales7Days else 0) + posSum7 t := by
  by_cases h : 0 < p.sales7Days <;> simp [posSum7, h]

/-- Positional characterisation of the ABC walk: the `i`-th output is the
`i`-th input, graded `D` when it has no sales, and by the cumulative share
of the positive prefix otherwise. -/
theorem abcWalk_getElem (total : Int) (l : List ProductStat) (cum : Int) (i : ℕ)
    (hi : i < l.length) (hi2 : i < (abcWalk total cum l).length) :
    (abcWalk total cum l)[i] =
      { l[i] with abcGrade :=
          if l[i].sales7Days ≤ 0 then .D
          else pctGrade (((cum + posSum7 (l.take (i + 1)) : Int) : ℚ) / (total : ℚ) * 100) } := by
  induction l generalizing cum i with
  | nil => exact absurd hi (by simp)
  | cons p rest ih =>
    by_cases hle : p.sales7Days ≤ 0
    · have hw : abcWalk total cum (p :: rest) =
          { p with abcGrade := .D } :: abcWalk total cum rest := by
        simp [abcWalk, hle]
      cases i with
      | zero =>
        simp only [hw, List.getElem_cons_zero, if_pos hle]
      | succ j =>
        have hj : j < rest.length := by simpa using hi
        have hj2 : j < (abcWalk total cum rest).length := by
          rw [abcWalk_length]; exact hj
        simp only [hw, List.getElem_cons_succ, List.take_succ_cons, posSum7_cons,
          if_neg (by omega : ¬ 0 < p.sales7Days)]
        rw [ih cum j hj hj2]
        simp only [zero_add]
    · have hw : abcWalk total cum (p :: rest) =
          { p with abcGrade :=
              pctGrade (((cum + p.sales7Days : Int) : ℚ) / (total : ℚ) * 100) } ::
            abcWalk total (cum + p.sales7Days) rest := by
        simp [abcWalk, hle]
      cases i with
      | zero =>
        simp only [hw, List.getElem_cons_zero, List.take_succ_cons, List.take_zero,
          posSum7_cons, if_pos (by omega : 0 < p.sales7Days), if_neg hle]
        simp [posSum7]
      | succ j =>
        have hj : j < rest.length := by simpa using hi
        have hj2 : j < (abcWalk total (cum + p.sales7Days) rest).length := by
          rw [abcWalk_length]; exact hj
        simp only [hw, List.getElem_cons_succ, List.take_succ_cons, posSum7_cons,
          if_pos (by omega : 0 < p.sales7Days)]
        rw [ih (cum + p.sales7Days) j hj hj2]
        simp only [add_assoc]

/-- The grade thresholds of the walk, as an exact three-way split. -/
theorem pctGrade_iff (x : ℚ) :
    (pctGrade x = .A ↔ x ≤ 20) ∧
    (pctGrade x = .B ↔ 20 < x ∧ x ≤ 50) ∧
    (pctGrade x = .C ↔ 50 < x) := by
  unfold pctGrade
  split_ifs with h1 h2
  · exact ⟨iff_of_true rfl h1, iff_of_false (by decide) (by rintro ⟨h20, _⟩; linarith),
      iff_of_false (by decide) (by intro h50; linarith)⟩
  · exact ⟨iff_of_false (by decide) h1, iff_of_true rfl ⟨not_le.mp h1, h2⟩,
      iff_of_false (by decide) (by intro h50; linarith)⟩
  · exact ⟨iff_of_false (by decide) h1,
      iff_of_false (by decide) (by rintro ⟨_, h50⟩; exact h2 h50),
      iff_of_true rfl (not_le.mp h2)⟩

theorem posSum7_eq_sum (t : List ProductStat) (hpos : ∀ p ∈ t, 0 < p.sales7Days) :
    posSum7 t = (t.map (·.sales7Days)).sum := by
  unfold posSum7
  rw [List.filter_eq_self.mpr (fun a ha => decide_eq_true (hpos a ha))]

/-- In a descending-sorted list, everything before a positive-sales item is
also positive. -/
theorem take_pos_of_sorted (s : List ProductStat) (hsort : s.Sorted bySales) (i : ℕ)
    (hi : i < s.length) (hq : 0 < s[i].sales7Days) :
    ∀ p ∈ s.take (i + 1), 0 < p.sales7Days := by
  intro q hqmem
  obtain ⟨j, hj, hget⟩ := List.mem_iff_getElem.mp hqmem
  have hj2 : j < i + 1 ∧ j < s.length := by
    rw [List.length_take] at hj
    exact lt_min_iff.mp hj
  have hsj : s[j] = q := by
    rw [← hget, List.getElem_take]
  rcases Nat.lt_or_ge j i with hji | hji
  · have hrel : bySales s[j] s[i] :=
      List.pairwise_iff_getElem.mp hsort j i hj2.2 hi hji
    rw [← hsj]
    exact lt_of_lt_of_le hq hrel
  · have hij : j = i := by omega
    subst hij
    rw [← hsj]
    exact hq

end Sales

namespace Sales

/-- C3: the ABC pass sorts all rows descending by `sales7Days` (a stable
sort, a permutation of the input) and walks them with a running sum; at
position `i` the row keeps its identity, is graded `D` when its `sales7Days`
is zero, and otherwise gets `A`/`B`/`C` exactly by whether the cumulative
share `prefixSum / totalOfAll7dSales * 100` is at most 20, in (20, 50], or
above 50; when the total is zero every row is `D` (the `D` early return
fires before any division). -/
theorem abc_classification_correct (l : List ProductStat)
    (hnn : ∀ p ∈ l, 0 ≤ p.sales7Days) (i : ℕ)
    (hi : i < (sortBySales7 l).length) (hi2 : i < (classifyABC l).length) :
    (sortBySales7 l).Perm l ∧
    (sortBySales7 l).Sorted bySales ∧
    ((classifyABC l)[i].barcode = (sortBySales7 l)[i].barcode ∧
     (classifyABC l)[i].sales7Days = (sortBySales7 l)[i].sales7Days) ∧
    ((sortBySales7 l)[i].sales7Days = 0 → (classifyABC l)[i].abcGrade = .D) ∧
    (0 < (sortBySales7 l)[i].sales7Days →
      (((classifyABC l)[i].abcGrade = .A ↔
          (((((sortBySales7 l).take (i + 1)).map (·.sales7Days)).sum : Int) : ℚ) /
            (((l.map (·.sales7Days)).sum : Int) : ℚ) * 100 ≤ 20) ∧
       ((classifyABC l)[i].abcGrade = .B ↔
          (20 < (((((sortBySales7 l).take (i + 1)).map (·.sales7Days)).sum : Int) : ℚ) /
            (((l.map (·.sales7Days)).sum : Int) : ℚ) * 100 ∧
           (((((sortBySales7 l).take (i + 1)).map (·.sales7Days)).sum : Int) : ℚ) /
            (((l.map (·.sales7Days)).sum : Int) : ℚ) * 100 ≤ 50)) ∧
       ((classifyABC l)[i].abcGrade = .C ↔
          50 < (((((sortBySales7 l).take (i + 1)).map (·.sales7Days)).sum : Int) : ℚ) /
            (((l.map (·.sales7Days)).sum : Int) : ℚ) * 100))) ∧
    ((l.map (·.sales7Days)).sum = 0 → (classifyABC l)[i].abcGrade = .D) := by
  have hperm : (sortBySales7 l).Perm l := List.perm_insertionSort bySales l
  have hsort : (sortBySales7 l).Sorted bySales := List.sorted_insertionSort bySales l
  have htot : ((sortBySales7 l).map (·.sales7Days)).sum = (l.map (·.sales7Days)).sum :=
    (hperm.map (·.sales7Days)).sum_eq
  have hlen : i < (abcWalk ((sortBySales7 l).map (·.sales7Days)).sum 0 (sortBySales7 l)).length :=
    hi2
  have hchar :=
    abcWalk_getElem ((sortBySales7 l).map (·.sales7Days)).sum (sortBySales7 l) 0 i hi hlen
  have hbar : (classifyABC l)[i].barcode = (sortBySales7 l)[i].barcode := by
    have h2 := congrArg ProductStat.barcode hchar
    exact h2
  have hs7 : (classifyABC l)[i].sales7Days = (sortBySales7 l)[i].sales7Days := by
    have h2 := congrArg ProductStat.sales7Days hchar
    exact h2
  have hgrade : (classifyABC l)[i].abcGrade =
      (if (sortBySales7 l)[i].sales7Days ≤ 0 then Grade.D
       else pctGrade (((0 + posSum7 ((sortBySales7 l).take (i + 1)) : Int) : ℚ) /
         ((((sortBySales7 l).map (·.sales7Days)).sum : Int) : ℚ) * 100)) := by
    have h2 := congrArg ProductStat.abcGrade hchar
    exact h2
  have hD : (sortBySales7 l)[i].sales7Days = 0 → (classifyABC l)[i].abcGrade = .D := by
    intro hz
    rw [hgrade, if_pos (by omega)]
  refine ⟨hperm, hsort, ⟨hbar, hs7⟩, hD, ?_, ?_⟩
  · intro hpos
    have hposall := take_pos_of_sorted (sortBySales7 l) hsort i hi hpos
    have hps : posSum7 ((sortBySales7 l).take (i + 1)) =
        (((sortBySales7 l).take (i + 1)).map (·.sales7Days)).sum :=
      posSum7_eq_sum _ hposall
    have hgrade2 : (classifyABC l)[i].abcGrade =
        pctGrade ((((((sortBySales7 l).take (i + 1)).map (·.sales7Days)).sum : Int) : ℚ) /
          (((l.map (·.sales7Days)).sum : Int) : ℚ) * 100) := by
      rw [hgrade, if_neg (by omega), hps, zero_add, htot]
    refine ⟨?_, ?_, ?_⟩ <;> rw [hgrade2]
    · exact (pctGrade_iff _).1
    · exact (pctGrade_iff _).2.1
    · exact (pctGrade_iff _).2.2
  · intro htz
    have hmem : (sortBySales7 l)[i] ∈ l := hperm.mem_iff.mp (List.getElem_mem hi)
    have hmm : (sortBySales7 l)[i].sales7Days ∈ l.map (·.sales7Days) :=
      List.mem_map.mpr ⟨_, hmem, rfl⟩
    have hnn2 : ∀ x ∈ l.map (·.sales7Days), (0 : Int) ≤ x := by
      intro x hx
      obtain ⟨p, hp, rfl⟩ := List.mem_map.mp hx
      exact hnn p hp
    have hle : (sortBySales7 l)[i].sales7Days ≤ (l.map (·.sales7Days)).sum :=
      List.single_le_sum hnn2 _ hmm
    have h0 : 0 ≤ (sortBySales7 l)[i].sales7Days := hnn _ hmem
    exact hD (by omega)

end Sales

namespace Sales

/-- A stats row with the given barcode and 7-day sales; the other fields are
irrelevant to classification. -/
def sampleStat (b : Nat) (s7 : Int) : ProductStat :=
  ⟨b, b, 0, 0, 0, s7, s7, s7, 0, 0, 0, .flat, .D⟩

/-- Ten equal sellers and one zero-sales row: the first sorted row holds a
10% cumulative share, so it is graded `A`. -/
def l3 : List ProductStat :=
  [sampleStat 1 10, sampleStat 2 10, sampleStat 3 10, sampleStat 4 10, sampleStat 5 10,
   sampleStat 6 10, sampleStat 7 10, sampleStat 8 10, sampleStat 9 10, sampleStat 10 10,
   sampleStat 11 0]

/-- C3 instance: the classification contract evaluated at position 0 of the
eleven-row sample. -/
theorem abc_classification_instance :
    (sortBySales7 l3).Perm l3 ∧
    (sortBySales7 l3).Sorted bySales ∧
    ((getElem (classifyABC l3) 0 (by with_unfolding_all decide)).barcode =
       (getElem (sortBySales7 l3) 0 (by decide)).barcode ∧
     (getElem (classifyABC l3) 0 (by with_unfolding_all decide)).sales7Days =
       (getElem (sortBySales7 l3) 0 (by decide)).sales7Days) ∧
    ((getElem (sortBySales7 l3) 0 (by decide)).sales7Days = 0 →
      (getElem (classifyABC l3) 0 (by with_unfolding_all decide)).abcGrade = .D) ∧
    (0 < (getElem (sortBySales7 l3) 0 (by decide)).sales7Days →
      (((getElem (classifyABC l3) 0 (by with_unfolding_all decide)).abcGrade = .A ↔
          (((((sortBySales7 l3).take (0 + 1)).map (·.sales7Days)).sum : Int) : ℚ) /
            (((l3.map (·.sales7Days)).sum : Int) : ℚ) * 100 ≤ 20) ∧
       ((getElem (classifyABC l3) 0 (by with_unfolding_all decide)).abcGrade = .B ↔
          (20 < (((((sortBySales7 l3).take (0 + 1)).map (·.sales7Days)).sum : Int) : ℚ) /
            (((l3.map (·.sales7Days)).sum : Int) : ℚ) * 100 ∧
           (((((sortBySales7 l3).take (0 + 1)).map (·.sales7Days)).sum : Int) : ℚ) /
            (((l3.map (·.sales7Days)).sum : Int) : ℚ) * 100 ≤ 50)) ∧
       ((getElem (classifyABC l3) 0 (by with_unfolding_all decide)).abcGrade = .C ↔
          50 < (((((sortBySales7 l3).take (0 + 1)).map (·.sales7Days)).sum : Int) : ℚ) /
            (((l3.map (·.sales7Days)).sum : Int) : ℚ) * 100))) ∧
    ((l3.map (·.sales7Days)).sum = 0 →
      (getElem (classifyABC l3) 0 (by with_unfolding_all decide)).abcGrade = .D) :=
  abc_classification_correct l3 (by decide) 0 (by decide) (by with_unfolding_all decide)

end Sales
